import Mathlib

/-!
Verification of the reflection-driven RPC codec and dispatch framework in
`nil/services/rpc/rawapi/server.go`.

The Go source is shallowly embedded: byte strings become `List Nat`,
`reflect.Value` becomes an abstract type parameter `V`, `context.Context`
an abstract type parameter `Ctx`, and a Go function outcome (return value,
error return, or panic via `check.PanicIfNotf`) becomes `GoResult`.
Parts of the repository referenced by `server.go` but absent from the
provided sources (`newApiCodec`, the `methodCodec` internals, the
`ShardApi` interfaces and `common.Filter`/`isExportedMethod`) are modelled
from the specification, each marked `Modelled from the spec:` in its doc
comment.
-/

namespace RawApi

/-- Raw wire bytes (`[]byte` in Go). -/
abbrev Bytes := List Nat

/-- Outcome of a Go function: a normal return, an error return (`err != nil`),
or a panic raised by `check.PanicIfNotf`. -/
inductive GoResult (α : Type) where
  | ok (a : α)
  | err (e : String)
  | panicked (msg : String)

/-- Embedding of the Go `methodCodec` value captured by each handler
(`unpackRequest`, `packError`, `packResponse`); the concrete functions are
derived by the codec builder, which is external to `server.go`, so they are
kept abstract here. `V` stands for `reflect.Value`. -/
structure methodCodec (V : Type) where
  unpackRequest : Bytes → Except String (List V)
  packError : String → Bytes
  packResponse : List V → Except String Bytes

/-- Result of one `network.RequestHandler` invocation: Go returns
`([]byte, error)`; the code produces either `(bytes, nil)` (a response
delivered at transport level) or `(nil, err)` (a transport-level error). -/
inductive HandlerResult where
  | response (bytes : Bytes)
  | transportError (e : String)

/-- Embedding of `makeRequestHandler` (server.go lines 91-104): decode the
request; on decode failure return the packed error with a nil transport
error; otherwise call the bound method with the reflected context value
first, then the decoded arguments, and return `packResponse` of the
results. `valueOf` embeds `reflect.ValueOf` on the context, `apiMethod`
the bound `reflect.Value` method (`Call` on a list of values). -/
def makeRequestHandler {V Ctx : Type} (valueOf : Ctx → V)
    (apiMethod : List V → List V) (codec : methodCodec V) :
    Ctx → Bytes → HandlerResult :=
  fun ctx request =>
    match codec.unpackRequest request with
    | .error e => .response (codec.packError e)
    | .ok unpackedArguments =>
        let apiArguments := valueOf ctx :: unpackedArguments
        let apiCallResults := apiMethod apiArguments
        match codec.packResponse apiCallResults with
        | .ok bytes => .response bytes
        | .error e => .transportError e

/-- A Go `reflect.Type` of an interface, reduced to what `server.go`
inspects: its list of method names (`iterMethods`). -/
structure GoType where
  methods : List String

/-- Modelled from the spec: `isExportedMethod` (package `common`, not under
src/). Only publicly exposed (exported) methods participate; in Go a method
is exported when its name starts with an upper-case letter. -/
def isExportedMethod (name : String) : Bool :=
  match name.data with
  | [] => false
  | c :: _ => c.isUpper

/-- Go `Type.Implements`: the dynamic type of the api value provides every
method of the interface type. -/
def GoType.implements (t iface : GoType) : Bool :=
  iface.methods.all (fun m => t.methods.contains m)

/-- The live API implementation instance (`api any` plus
`reflect.ValueOf(api)`): its dynamic type and `MethodByName`. -/
structure ApiValue (V : Type) where
  type : GoType
  methodByName : String → (List V → List V)

/-- Modelled from the spec: the recursion inside `newApiCodec` (not under
src/). For each method of the selected API set, an identically named mirror
method must exist in the protocol interface type and a codec must be
derivable for the pair; a missing mirror method or an underivable codec is
a construction-time error. `derive` abstracts the per-method codec
derivation (shape checking of native against mirror types). -/
def buildCodecTable {V : Type} (derive : String → Option (methodCodec V))
    (protocolMethods : List String) :
    List String → Except String (List (String × methodCodec V))
  | [] => .ok []
  | m :: rest =>
    if protocolMethods.contains m then
      match derive m with
      | some c =>
          match buildCodecTable derive protocolMethods rest with
          | .ok table => .ok ((m, c) :: table)
          | .error e => .error e
      | none => .error ("no derivable codec for method " ++ m)
    else .error ("no mirror method for " ++ m)

/-- Modelled from the spec: `newApiCodec(apiType, protocolInterfaceType)`
(not under src/) builds the codec table for the exported methods of the
capability-selected API type, matching mirror methods by name. -/
def newApiCodec {V : Type} (apiType protocolInterfaceType : GoType)
    (derive : String → Option (methodCodec V)) :
    Except String (List (String × methodCodec V)) :=
  buildCodecTable derive protocolInterfaceType.methods
    (apiType.methods.filter isExportedMethod)

/-- Lookup `codec[methodName]` in the codec table. -/
def lookupCodec {V : Type} (table : List (String × methodCodec V))
    (name : String) : Option (methodCodec V) :=
  (table.find? (fun e => e.1 == name)).map (fun e => e.2)

/-- Embedding of `fmt.Sprintf("/shard/%d/%s/%s", shardId, apiName,
methodName)` (server.go line 73); `%d` renders the shard id in decimal,
which is `Nat.repr`. -/
def protocolID (shardId : Nat) (apiName methodName : String) : String :=
  "/shard/" ++ Nat.repr shardId ++ "/" ++ apiName ++ "/" ++ methodName

/-- The loop body of `getRawApiRequestHandlers` (server.go lines 68-75):
for each exported method, look up its codec (`check.PanicIfNotf` when the
lookup fails), compute the protocol identifier and build the handler. -/
def buildHandlers {V Ctx : Type} (valueOf : Ctx → V) (api : ApiValue V)
    (codec : List (String × methodCodec V)) (shardId : Nat)
    (apiName : String) :
    List String → GoResult (List (String × (Ctx → Bytes → HandlerResult)))
  | [] => .ok []
  | methodName :: rest =>
    match lookupCodec codec methodName with
    | none => .panicked ("Appropriate codec is not found for method " ++ methodName)
    | some methodCodec =>
      match buildHandlers valueOf api codec shardId apiName rest with
      | .ok handlers =>
          .ok ((protocolID shardId apiName methodName,
                makeRequestHandler valueOf (api.methodByName methodName)
                  methodCodec) :: handlers)
      | .err e => .err e
      | .panicked m => .panicked m

/-- Embedding of `getRawApiRequestHandlers` (server.go lines 59-77):
panic if the api value does not implement the selected API type, build the
codec table (wrapping a failure in `errRequestHandlerCreation`), then build
one handler per exported method keyed by its protocol identifier. -/
def getRawApiRequestHandlers {V Ctx : Type} (valueOf : Ctx → V)
    (derive : String → Option (methodCodec V))
    (protocolInterfaceType apiType : GoType) (api : ApiValue V)
    (shardId : Nat) (apiName : String) :
    GoResult (List (String × (Ctx → Bytes → HandlerResult))) :=
  if api.type.implements apiType then
    match newApiCodec apiType protocolInterfaceType derive with
    | .error e => .err ("failed to create request handler: " ++ e)
    | .ok codec =>
        buildHandlers valueOf api codec shardId apiName
          (apiType.methods.filter isExportedMethod)
  else
    .panicked "api does not implement apiType"

/-- The transport's handler table (`network.Manager`), reduced to the part
`server.go` touches: the mapping from protocol identifier to handler
mutated by `SetRequestHandler` (overwrite on insert). -/
def Manager (_V Ctx : Type) := String → Option (Ctx → Bytes → HandlerResult)

/-- `manager.SetRequestHandler(ctx, name, handler)`: install (or replace)
the handler under the given protocol identifier. -/
def SetRequestHandler {V Ctx : Type} (mgr : Manager V Ctx) (name : String)
    (handler : Ctx → Bytes → HandlerResult) : Manager V Ctx :=
  fun n => if n = name then some handler else mgr n

/-- Embedding of `setRawApiRequestHandlers` (server.go lines 79-89): build
the handlers; on error log and return the error without touching the
manager; on success install every handler. Returns the Go outcome together
with the resulting manager state. -/
def setRawApiRequestHandlers {V Ctx : Type} (valueOf : Ctx → V)
    (derive : String → Option (methodCodec V))
    (protocolInterfaceType apiType : GoType) (api : ApiValue V)
    (shardId : Nat) (apiName : String) (mgr : Manager V Ctx) :
    GoResult Unit × Manager V Ctx :=
  match getRawApiRequestHandlers valueOf derive protocolInterfaceType apiType
      api shardId apiName with
  | .err e => (.err e, mgr)
  | .panicked m => (.panicked m, mgr)
  | .ok requestHandlers =>
      (.ok (), requestHandlers.foldl
        (fun acc nh => SetRequestHandler acc nh.1 nh.2) mgr)

/-- The read-only protocol mirror interface `NetworkTransportProtocolRo`
(server.go lines 19-38): its method names in declaration order. -/
def NetworkTransportProtocolRo : GoType :=
  ⟨["GetBlockHeader", "GetFullBlockData", "GetBlockTransactionCount",
    "GetInTransaction", "GetInTransactionReceipt",
    "GetBalance", "GetCode", "GetTokens", "GetTransactionCount",
    "GetContract", "Call", "GasPrice", "GetShardIdList", "GetNumShards"]⟩

/-- The full protocol mirror interface `NetworkTransportProtocol`
(server.go lines 42-45): the read-only methods plus `SendTransaction`. -/
def NetworkTransportProtocol : GoType :=
  ⟨NetworkTransportProtocolRo.methods ++ ["SendTransaction"]⟩

/-- Modelled from the spec: the read-only API surface `ShardApiRo` (not
under src/) has one method per mirror method of
`NetworkTransportProtocolRo`, matched by name. -/
def ShardApiRo : GoType := ⟨NetworkTransportProtocolRo.methods⟩

/-- Modelled from the spec: the full API surface `ShardApi` (not under
src/) has one method per mirror method of `NetworkTransportProtocol`,
matched by name; it adds the mutating `SendTransaction` to the read-only
set. -/
def ShardApi : GoType := ⟨NetworkTransportProtocol.methods⟩

/-- Embedding of the exported entry point `SetRawApiRequestHandlers`
(server.go lines 47-57): the read-only flag selects the
(`NetworkTransportProtocolRo`, `ShardApiRo`) pair, full capability selects
(`NetworkTransportProtocol`, `ShardApi`); the api name is the fixed token
"rawapi". -/
def SetRawApiRequestHandlers {V Ctx : Type} (valueOf : Ctx → V)
    (derive : String → Option (methodCodec V)) (shardId : Nat)
    (api : ApiValue V) (mgr : Manager V Ctx) (readonly : Bool) :
    GoResult Unit × Manager V Ctx :=
  if readonly then
    setRawApiRequestHandlers valueOf derive NetworkTransportProtocolRo
      ShardApiRo api shardId "rawapi" mgr
  else
    setRawApiRequestHandlers valueOf derive NetworkTransportProtocol
      ShardApi api shardId "rawapi" mgr

/-- Codec used to instantiate witnesses: decoding fails on the empty
request and succeeds otherwise. -/
def witnessCodec : methodCodec Nat :=
  ⟨fun b => if b.length = 0 then .error "empty request" else .ok b,
   fun _ => [7], fun rs => .ok rs⟩

/-- Codec whose response packing always fails, for the transport-error
witness. -/
def failPackCodec : methodCodec Nat :=
  ⟨fun b => .ok b, fun _ => [7], fun _ => .error "pack failed"⟩

/-- Api value used to instantiate witnesses: one exported method and one
non-exported method. -/
def witnessApi : ApiValue Nat := ⟨⟨["Foo", "bar"]⟩, fun _ args => args⟩

lemma makeRequestHandler_decode_error {V Ctx : Type} (valueOf : Ctx → V)
    (apiMethod : List V → List V) (codec : methodCodec V) (ctx : Ctx)
    (req : Bytes) (e : String) (h : codec.unpackRequest req = .error e) :
    makeRequestHandler valueOf apiMethod codec ctx req =
      .response (codec.packError e) := by
  simp [makeRequestHandler, h]

lemma mem_buildHandlers_shape {V Ctx : Type} (valueOf : Ctx → V)
    (api : ApiValue V) (codec : List (String × methodCodec V))
    (shardId : Nat) (apiName : String) (ms : List String)
    (hs : List (String × (Ctx → Bytes → HandlerResult)))
    (n : String) (h : Ctx → Bytes → HandlerResult)
    (hok : buildHandlers valueOf api codec shardId apiName ms = .ok hs)
    (hmem : (n, h) ∈ hs) :
    ∃ m mc, m ∈ ms ∧ lookupCodec codec m = some mc ∧
      n = protocolID shardId apiName m ∧
      h = makeRequestHandler valueOf (api.methodByName m) mc := by
  induction ms generalizing hs with
  | nil =>
    simp only [buildHandlers] at hok
    cases hok
    simp at hmem
  | cons m rest ih =>
    simp only [buildHandlers] at hok
    cases hlk : lookupCodec codec m with
    | none => rw [hlk] at hok; cases hok
    | some mc =>
      rw [hlk] at hok
      cases hrest : buildHandlers valueOf api codec shardId apiName rest with
      | ok tail =>
        rw [hrest] at hok
        cases hok
        rcases List.mem_cons.mp hmem with hhead | htail
        · exact ⟨m, mc, List.mem_cons_self .., hlk,
            congrArg Prod.fst hhead, congrArg Prod.snd hhead⟩
        · obtain ⟨m', mc', hm', hlk', hn', hh'⟩ := ih tail hrest htail
          exact ⟨m', mc', List.mem_cons_of_mem _ hm', hlk', hn', hh'⟩
      | err e => rw [hrest] at hok; cases hok
      | panicked p => rw [hrest] at hok; cases hok

lemma getRaw_ok_elim {V Ctx : Type} (valueOf : Ctx → V)
    (derive : String → Option (methodCodec V))
    (protocolInterfaceType apiType : GoType) (api : ApiValue V)
    (shardId : Nat) (apiName : String)
    (hs : List (String × (Ctx → Bytes → HandlerResult)))
    (hok : getRawApiRequestHandlers valueOf derive protocolInterfaceType
      apiType api shardId apiName = .ok hs) :
    ∃ table, newApiCodec apiType protocolInterfaceType derive = .ok table ∧
      buildHandlers valueOf api table shardId apiName
        (apiType.methods.filter isExportedMethod) = .ok hs := by
  unfold getRawApiRequestHandlers at hok
  split at hok
  · cases htab : newApiCodec apiType protocolInterfaceType derive with
    | error e => rw [htab] at hok; cases hok
    | ok table => rw [htab] at hok; exact ⟨table, rfl, hok⟩
  · cases hok

/-- C2: every handler registered by `getRawApiRequestHandlers` is the
`makeRequestHandler` closure over the codec that the successfully built
codec table binds to the handler's own method, and on every request bytes
on which that bound codec's decode fails, the handler returns that codec's
packed error payload as the response with a nil transport-level error (the
`HandlerResult.response` case), and does not panic. -/
theorem c2_decode_failure_packed_error {V Ctx : Type} (valueOf : Ctx → V)
    (derive : String → Option (methodCodec V))
    (protocolInterfaceType apiType : GoType) (api : ApiValue V)
    (shardId : Nat) (apiName : String)
    (hs : List (String × (Ctx → Bytes → HandlerResult)))
    (n : String) (h : Ctx → Bytes → HandlerResult)
    (hok : getRawApiRequestHandlers valueOf derive protocolInterfaceType
      apiType api shardId apiName = .ok hs)
    (hmem : (n, h) ∈ hs) :
    ∃ table m mc,
      newApiCodec apiType protocolInterfaceType derive = .ok table ∧
      lookupCodec table m = some mc ∧
      n = protocolID shardId apiName m ∧
      h = makeRequestHandler valueOf (api.methodByName m) mc ∧
      ∀ ctx req e, mc.unpackRequest req = .error e →
        h ctx req = .response (mc.packError e) := by
  obtain ⟨table, htab, hbuild⟩ := getRaw_ok_elim _ _ _ _ _ _ _ _ hok
  obtain ⟨m, mc, hm, hlk, hn, hh⟩ :=
    mem_buildHandlers_shape _ _ _ _ _ _ _ _ _ hbuild hmem
  exact ⟨table, m, mc, htab, hlk, hn, hh, fun ctx req e he => by
    rw [hh]; exact makeRequestHandler_decode_error _ _ _ _ _ _ he⟩

/-- Witness for C2 at shard 3, api name "test", a one-method api and a
codec that rejects the empty request. -/
theorem c2_witness :
    ∃ table m mc,
      newApiCodec (GoType.mk ["Foo"]) (GoType.mk ["Foo"])
        (fun _ => some witnessCodec) = .ok table ∧
      lookupCodec table m = some mc ∧
      protocolID 3 "test" "Foo" = protocolID 3 "test" m ∧
      makeRequestHandler (fun _ : Unit => (0 : Nat))
        (witnessApi.methodByName "Foo") witnessCodec =
        makeRequestHandler (fun _ : Unit => (0 : Nat))
          (witnessApi.methodByName m) mc ∧
      ∀ (ctx : Unit) (req : Bytes) (e : String),
        mc.unpackRequest req = .error e →
          makeRequestHandler (fun _ : Unit => (0 : Nat))
            (witnessApi.methodByName "Foo") witnessCodec ctx req =
            .response (mc.packError e) :=
  c2_decode_failure_packed_error (fun _ : Unit => (0 : Nat))
    (fun _ => some witnessCodec) ⟨["Foo"]⟩ ⟨["Foo"]⟩ witnessApi 3 "test"
    [(protocolID 3 "test" "Foo",
      makeRequestHandler (fun _ : Unit => (0 : Nat))
        (witnessApi.methodByName "Foo") witnessCodec)]
    (protocolID 3 "test" "Foo")
    (makeRequestHandler (fun _ : Unit => (0 : Nat))
      (witnessApi.methodByName "Foo") witnessCodec)
    rfl (List.mem_singleton.mpr rfl)

/-- C4: on a request whose bytes decode into `args`, the handler invokes
the bound api method with the reflected execution context first followed by
the decoded arguments in order, and returns the bytes produced by
`packResponse` on the method's results (the response when packing succeeds,
a transport error when it fails). -/
theorem c4_dispatch_success {V Ctx : Type} (valueOf : Ctx → V)
    (apiMethod : List V → List V) (codec : methodCodec V) (ctx : Ctx)
    (req : Bytes) (args : List V)
    (hdec : codec.unpackRequest req = .ok args) :
    makeRequestHandler valueOf apiMethod codec ctx req =
      match codec.packResponse (apiMethod (valueOf ctx :: args)) with
      | .ok bytes => .response bytes
      | .error e => .transportError e := by
  simp [makeRequestHandler, hdec]

/-- Witness for C4: the identity method echoes the decoded arguments. -/
theorem c4_witness :
    makeRequestHandler (fun _ => (0 : Nat)) (fun args => args) witnessCodec
      () [5] =
      match witnessCodec.packResponse ((fun args => args) (0 :: [5])) with
      | .ok bytes => .response bytes
      | .error e => .transportError e :=
  c4_dispatch_success (fun _ => (0 : Nat)) (fun args => args) witnessCodec
    () [5] [5] rfl

/-- C10: on a request that decodes successfully but whose results
`packResponse` fails to encode, the handler returns that failure as a
transport-level error, not as a packed error payload. -/
theorem c10_pack_failure_transport_error {V Ctx : Type} (valueOf : Ctx → V)
    (apiMethod : List V → List V) (codec : methodCodec V) (ctx : Ctx)
    (req : Bytes) (args : List V) (e : String)
    (hdec : codec.unpackRequest req = .ok args)
    (hpack : codec.packResponse (apiMethod (valueOf ctx :: args)) = .error e) :
    makeRequestHandler valueOf apiMethod codec ctx req = .transportError e := by
  simp [makeRequestHandler, hdec, hpack]

/-- Witness for C10 with a codec whose response packing always fails. -/
theorem c10_witness :
    makeRequestHandler (fun _ => (0 : Nat)) (fun args => args) failPackCodec
      () [5] = .transportError "pack failed" :=
  c10_pack_failure_transport_error (fun _ => (0 : Nat)) (fun args => args)
    failPackCodec () [5] [5] "pack failed" rfl rfl

/-- C8: the protocol identifier is a pure, deterministic function of the
shard id, api name and method name: equal inputs give the identical string,
and the string is exactly "/shard/" followed by the decimal rendering of
the shard id, the api name and the method name separated by slashes. -/
theorem c8_protocol_id_deterministic (s1 s2 : Nat) (a1 a2 m1 m2 : String)
    (hs : s1 = s2) (ha : a1 = a2) (hm : m1 = m2) :
    protocolID s1 a1 m1 = protocolID s2 a2 m2 ∧
      protocolID s1 a1 m1 =
        "/shard/" ++ Nat.repr s1 ++ "/" ++ a1 ++ "/" ++ m1 := by
  subst hs; subst ha; subst hm; exact ⟨rfl, rfl⟩

/-- Witness for C8 at shard 3, api "rawapi", method "GetBalance". -/
theorem c8_witness :
    protocolID 3 "rawapi" "GetBalance" = protocolID 3 "rawapi" "GetBalance" ∧
      protocolID 3 "rawapi" "GetBalance" =
        "/shard/" ++ Nat.repr 3 ++ "/" ++ "rawapi" ++ "/" ++ "GetBalance" :=
  c8_protocol_id_deterministic 3 3 "rawapi" "rawapi" "GetBalance"
    "GetBalance" rfl rfl rfl

lemma protocolID_injective (s : Nat) (a : String) :
    Function.Injective (protocolID s a) := by
  intro m1 m2 h
  have hd := congrArg String.data h
  rw [protocolID, protocolID, String.data_append, String.data_append] at hd
  exact String.ext (List.append_cancel_left hd)

lemma buildHandlers_keys {V Ctx : Type} (valueOf : Ctx → V)
    (api : ApiValue V) (codec : List (String × methodCodec V))
    (shardId : Nat) (apiName : String) (ms : List String)
    (hs : List (String × (Ctx → Bytes → HandlerResult)))
    (hok : buildHandlers valueOf api codec shardId apiName ms = .ok hs) :
    hs.map Prod.fst = ms.map (protocolID shardId apiName) := by
  induction ms generalizing hs with
  | nil => simp only [buildHandlers] at hok; cases hok; rfl
  | cons m rest ih =>
    simp only [buildHandlers] at hok
    cases hlk : lookupCodec codec m with
    | none => rw [hlk] at hok; cases hok
    | some mc =>
      rw [hlk] at hok
      cases hrest : buildHandlers valueOf api codec shardId apiName rest with
      | ok tail => rw [hrest] at hok; cases hok; simp [ih tail hrest]
      | err e => rw [hrest] at hok; cases hok
      | panicked p => rw [hrest] at hok; cases hok

/-- C1: when registration handler construction succeeds, the installed
protocol identifiers are exactly `/shard/<s>/<a>/<m>` for the exported
methods `m` of the selected API type, in order, with one handler per
identifier and none under any other identifier; non-exported methods get
no handler. -/
theorem c1_registered_protocol_ids {V Ctx : Type} (valueOf : Ctx → V)
    (derive : String → Option (methodCodec V))
    (protocolInterfaceType apiType : GoType) (api : ApiValue V)
    (shardId : Nat) (apiName : String)
    (hs : List (String × (Ctx → Bytes → HandlerResult)))
    (hok : getRawApiRequestHandlers valueOf derive protocolInterfaceType
      apiType api shardId apiName = .ok hs)
    (hnd : apiType.methods.Nodup) :
    hs.map Prod.fst =
      (apiType.methods.filter isExportedMethod).map
        (protocolID shardId apiName) ∧
    (hs.map Prod.fst).Nodup := by
  obtain ⟨table, htab, hbuild⟩ := getRaw_ok_elim _ _ _ _ _ _ _ _ hok
  have hkeys := buildHandlers_keys _ _ _ _ _ _ _ hbuild
  refine ⟨hkeys, ?_⟩
  rw [hkeys]
  exact (hnd.filter _).map (protocolID_injective shardId apiName)

/-- Witness for C1: a two-method api type with one non-exported method
registers exactly one handler, under the exported method's identifier. -/
theorem c1_witness :
    [(protocolID 3 "test" "Foo",
      makeRequestHandler (fun _ : Unit => (0 : Nat))
        (witnessApi.methodByName "Foo") witnessCodec)].map Prod.fst =
      ((GoType.mk ["Foo", "bar"]).methods.filter isExportedMethod).map
        (protocolID 3 "test") ∧
    ([(protocolID 3 "test" "Foo",
      makeRequestHandler (fun _ : Unit => (0 : Nat))
        (witnessApi.methodByName "Foo") witnessCodec)].map Prod.fst).Nodup :=
  c1_registered_protocol_ids (fun _ : Unit => (0 : Nat))
    (fun _ => some witnessCodec) ⟨["Foo"]⟩ ⟨["Foo", "bar"]⟩ witnessApi
    3 "test"
    [(protocolID 3 "test" "Foo",
      makeRequestHandler (fun _ : Unit => (0 : Nat))
        (witnessApi.methodByName "Foo") witnessCodec)]
    rfl (by decide)

/-- C5: when handler construction fails with an error (in particular when
the codec table cannot be built), `setRawApiRequestHandlers` returns that
error and leaves the transport's handler table untouched; likewise a
construction-time panic installs nothing. -/
theorem c5_no_partial_registration {V Ctx : Type} (valueOf : Ctx → V)
    (derive : String → Option (methodCodec V))
    (protocolInterfaceType apiType : GoType) (api : ApiValue V)
    (shardId : Nat) (apiName : String) (mgr : Manager V Ctx) :
    (∀ e, getRawApiRequestHandlers valueOf derive protocolInterfaceType
        apiType api shardId apiName = .err e →
      setRawApiRequestHandlers valueOf derive protocolInterfaceType apiType
        api shardId apiName mgr = (.err e, mgr)) ∧
    (∀ p, getRawApiRequestHandlers valueOf derive protocolInterfaceType
        apiType api shardId apiName = .panicked p →
      setRawApiRequestHandlers valueOf derive protocolInterfaceType apiType
        api shardId apiName mgr = (.panicked p, mgr)) := by
  constructor
  · intro e he; simp [setRawApiRequestHandlers, he]
  · intro p hp; simp [setRawApiRequestHandlers, hp]

/-- Empty transport handler table used by witnesses. -/
def emptyManager : Manager Nat Unit := fun _ => none

/-- Witness for C5: with a codec derivation that fails for method "Foo",
registration returns the wrapped error and the manager is unchanged. -/
theorem c5_witness :
    setRawApiRequestHandlers (fun _ : Unit => (0 : Nat)) (fun _ => none)
      ⟨["Foo"]⟩ ⟨["Foo"]⟩ witnessApi 3 "test" emptyManager =
      (.err "failed to create request handler: no derivable codec for method Foo",
        emptyManager) :=
  (c5_no_partial_registration (fun _ : Unit => (0 : Nat)) (fun _ => none)
    ⟨["Foo"]⟩ ⟨["Foo"]⟩ witnessApi 3 "test" emptyManager).1 _ rfl

lemma buildCodecTable_keys {V : Type} (derive : String → Option (methodCodec V))
    (protocolMethods ms : List String)
    (table : List (String × methodCodec V))
    (hok : buildCodecTable derive protocolMethods ms = .ok table) :
    table.map Prod.fst = ms := by
  induction ms generalizing table with
  | nil => simp only [buildCodecTable] at hok; cases hok; rfl
  | cons m rest ih =>
    simp only [buildCodecTable] at hok
    split at hok
    · cases hder : derive m with
      | none => rw [hder] at hok; cases hok
      | some c =>
        rw [hder] at hok
        cases hrest : buildCodecTable derive protocolMethods rest with
        | ok tail => rw [hrest] at hok; cases hok; simp [ih tail hrest]
        | error e => rw [hrest] at hok; cases hok
    · cases hok

lemma lookupCodec_isSome_of_mem {V : Type}
    (table : List (String × methodCodec V)) (m : String)
    (hm : m ∈ table.map Prod.fst) :
    ∃ mc, lookupCodec table m = some mc := by
  induction table with
  | nil => simp at hm
  | cons e rest ih =>
    by_cases he : e.1 = m
    · exact ⟨e.2, by simp [lookupCodec, List.find?_cons, he]⟩
    · have hm' : m ∈ rest.map Prod.fst := by
        rcases List.mem_cons.mp hm with h | h
        · exact absurd h.symm he
        · exact h
      obtain ⟨mc, hmc⟩ := ih hm'
      refine ⟨mc, ?_⟩
      simp only [lookupCodec, List.find?_cons] at hmc ⊢
      have : (e.1 == m) = false := beq_false_of_ne he
      rw [this]
      exact hmc

lemma buildHandlers_ok_of_covered {V Ctx : Type} (valueOf : Ctx → V)
    (api : ApiValue V) (codec : List (String × methodCodec V))
    (shardId : Nat) (apiName : String) (ms : List String)
    (hcov : ∀ m ∈ ms, ∃ mc, lookupCodec codec m = some mc) :
    ∃ hs, buildHandlers valueOf api codec shardId apiName ms = .ok hs := by
  induction ms with
  | nil => exact ⟨[], rfl⟩
  | cons m rest ih =>
    obtain ⟨mc, hmc⟩ := hcov m (List.mem_cons_self ..)
    obtain ⟨tail, htail⟩ := ih (fun m' hm' => hcov m' (List.mem_cons_of_mem _ hm'))
    refine ⟨(protocolID shardId apiName m,
      makeRequestHandler valueOf (api.methodByName m) mc) :: tail, ?_⟩
    simp only [buildHandlers, hmc, htail]

/-- C7: a successfully built codec table has exactly one entry per exported
method of the capability-selected API type (its keys are that method list,
without duplicates when the method names are distinct), and handler
construction then succeeds for every such method, so a missing entry is
never observable once construction has completed. -/
theorem c7_codec_table_complete {V Ctx : Type} (valueOf : Ctx → V)
    (derive : String → Option (methodCodec V))
    (protocolInterfaceType apiType : GoType) (api : ApiValue V)
    (shardId : Nat) (apiName : String)
    (table : List (String × methodCodec V))
    (htab : newApiCodec apiType protocolInterfaceType derive = .ok table)
    (hnd : apiType.methods.Nodup) :
    table.map Prod.fst = apiType.methods.filter isExportedMethod ∧
    (table.map Prod.fst).Nodup ∧
    ∃ hs, buildHandlers valueOf api table shardId apiName
      (apiType.methods.filter isExportedMethod) = .ok hs := by
  have hkeys := buildCodecTable_keys _ _ _ _ htab
  refine ⟨hkeys, by rw [hkeys]; exact hnd.filter _, ?_⟩
  exact buildHandlers_ok_of_covered _ _ _ _ _ _
    (fun m hm => lookupCodec_isSome_of_mem table m (by rw [hkeys]; exact hm))

/-- Witness for C7 with a two-method api type, one method exported. -/
theorem c7_witness :
    [("Foo", witnessCodec)].map Prod.fst =
      (GoType.mk ["Foo", "bar"]).methods.filter isExportedMethod ∧
    ([("Foo", witnessCodec)].map Prod.fst).Nodup ∧
    ∃ hs, buildHandlers (fun _ : Unit => (0 : Nat)) witnessApi
      [("Foo", witnessCodec)] 3 "test"
      ((GoType.mk ["Foo", "bar"]).methods.filter isExportedMethod) = .ok hs :=
  c7_codec_table_complete (fun _ : Unit => (0 : Nat))
    (fun _ => some witnessCodec) ⟨["Foo"]⟩ ⟨["Foo", "bar"]⟩ witnessApi
    3 "test" [("Foo", witnessCodec)] rfl (by decide)

/-- Counterexample to C6 as stated: an api value that does not satisfy the
selected method set makes `getRawApiRequestHandlers` panic (via
`check.PanicIfNotf`) instead of returning an error result. -/
theorem c6_counterexample_panic_not_error :
    getRawApiRequestHandlers (fun _ : Unit => (0 : Nat))
      (fun _ => some witnessCodec) ⟨["Foo"]⟩ ⟨["Foo"]⟩
      (⟨⟨[]⟩, fun _ args => args⟩ : ApiValue Nat) 3 "test" =
      .panicked "api does not implement apiType" := rfl

/-- C6 (amended): a failure to build the codec table (missing mirror method
or underivable codec) is reported to the caller as an error result wrapping
the handler-creation error, while an api implementation that does not
satisfy the selected method set is reported by a construction-time panic
rather than an error result. -/
theorem c6_amended_construction_errors {V Ctx : Type} (valueOf : Ctx → V)
    (derive : String → Option (methodCodec V))
    (protocolInterfaceType apiType : GoType) (api : ApiValue V)
    (shardId : Nat) (apiName : String) :
    (∀ e, api.type.implements apiType = true →
      newApiCodec apiType protocolInterfaceType derive = .error e →
      getRawApiRequestHandlers valueOf derive protocolInterfaceType apiType
        api shardId apiName =
        .err ("failed to create request handler: " ++ e)) ∧
    (api.type.implements apiType = false →
      getRawApiRequestHandlers valueOf derive protocolInterfaceType apiType
        api shardId apiName = .panicked "api does not implement apiType") := by
  constructor
  · intro e himpl herr
    simp [getRawApiRequestHandlers, himpl, herr]
  · intro himpl
    simp [getRawApiRequestHandlers, himpl]

/-- Witness for C6 (amended): with no derivable codec for "Foo" the wrapped
error is returned. -/
theorem c6_witness :
    getRawApiRequestHandlers (fun _ : Unit => (0 : Nat)) (fun _ => none)
      ⟨["Foo"]⟩ ⟨["Foo"]⟩ witnessApi 3 "test" =
      .err "failed to create request handler: no derivable codec for method Foo" :=
  (c6_amended_construction_errors (fun _ : Unit => (0 : Nat)) (fun _ => none)
    ⟨["Foo"]⟩ ⟨["Foo"]⟩ witnessApi 3 "test").1 _ rfl rfl

lemma foldl_set_apply_not_mem {V Ctx : Type}
    (hs : List (String × (Ctx → Bytes → HandlerResult)))
    (mgr : Manager V Ctx) (k : String) (hk : k ∉ hs.map Prod.fst) :
    (hs.foldl (fun acc nh => SetRequestHandler acc nh.1 nh.2) mgr) k = mgr k := by
  induction hs generalizing mgr with
  | nil => rfl
  | cons nh rest ih =>
    simp only [List.map_cons, List.mem_cons, not_or] at hk
    rw [List.foldl_cons, ih (SetRequestHandler mgr nh.1 nh.2) hk.2]
    simp [SetRequestHandler, hk.1]

lemma foldl_set_apply_isSome {V Ctx : Type}
    (hs : List (String × (Ctx → Bytes → HandlerResult)))
    (mgr : Manager V Ctx) (k : String) (hk : k ∈ hs.map Prod.fst) :
    ((hs.foldl (fun acc nh => SetRequestHandler acc nh.1 nh.2) mgr) k).isSome := by
  induction hs generalizing mgr with
  | nil => simp at hk
  | cons nh rest ih =>
    rw [List.foldl_cons]
    by_cases hmem : k ∈ rest.map Prod.fst
    · exact ih (SetRequestHandler mgr nh.1 nh.2) hmem
    · have hk1 : k = nh.1 := by
        simp only [List.map_cons, List.mem_cons] at hk
        tauto
      rw [foldl_set_apply_not_mem rest (SetRequestHandler mgr nh.1 nh.2) k hmem]
      simp [SetRequestHandler, hk1]

/-- C3: registering with the read-only flag never installs a handler for
the mutating `SendTransaction` method (the read-only protocol and API pair
is selected, and its identifier stays absent from the transport table),
while a successful full-capability registration installs a handler for
every method of the full API surface, `SendTransaction` included. -/
theorem c3_capability_separation {V Ctx : Type} (valueOf : Ctx → V)
    (derive : String → Option (methodCodec V)) (shardId : Nat)
    (api : ApiValue V) (mgr : Manager V Ctx)
    (hro : mgr (protocolID shardId "rawapi" "SendTransaction") = none)
    (hfull : (SetRawApiRequestHandlers valueOf derive shardId api mgr
      false).1 = .ok ()) :
    ((SetRawApiRequestHandlers valueOf derive shardId api mgr true).2
      (protocolID shardId "rawapi" "SendTransaction") = none) ∧
    (∀ m ∈ ShardApi.methods,
      ((SetRawApiRequestHandlers valueOf derive shardId api mgr false).2
        (protocolID shardId "rawapi" m)).isSome) := by
  constructor
  · simp only [SetRawApiRequestHandlers, if_pos]
    cases hget : getRawApiRequestHandlers valueOf derive
        NetworkTransportProtocolRo ShardApiRo api shardId "rawapi" with
    | err e => simp [setRawApiRequestHandlers, hget, hro]
    | panicked p => simp [setRawApiRequestHandlers, hget, hro]
    | ok hs =>
      simp only [setRawApiRequestHandlers, hget]
      obtain ⟨table, htab, hbuild⟩ := getRaw_ok_elim _ _ _ _ _ _ _ _ hget
      have hkeys := buildHandlers_keys _ _ _ _ _ _ _ hbuild
      rw [foldl_set_apply_not_mem hs mgr _ ?_]
      · exact hro
      · rw [hkeys]
        intro hmem
        obtain ⟨m, hm, heq⟩ := List.mem_map.mp hmem
        have hms : m = "SendTransaction" :=
          protocolID_injective shardId "rawapi" heq
        have : "SendTransaction" ∈ ShardApiRo.methods :=
          hms ▸ List.mem_of_mem_filter hm
        exact absurd this (by decide)
  · intro m hm
    rw [SetRawApiRequestHandlers, if_neg (by simp : ¬ false = true)] at hfull
    rw [SetRawApiRequestHandlers, if_neg (by simp : ¬ false = true)]
    cases hget : getRawApiRequestHandlers valueOf derive
        NetworkTransportProtocol ShardApi api shardId "rawapi" with
    | err e => rw [setRawApiRequestHandlers, hget] at hfull; cases hfull
    | panicked p => rw [setRawApiRequestHandlers, hget] at hfull; cases hfull
    | ok hs =>
      simp only [setRawApiRequestHandlers, hget]
      obtain ⟨table, htab, hbuild⟩ := getRaw_ok_elim _ _ _ _ _ _ _ _ hget
      have hkeys := buildHandlers_keys _ _ _ _ _ _ _ hbuild
      apply foldl_set_apply_isSome
      rw [hkeys]
      have hfilter : ShardApi.methods.filter isExportedMethod =
          ShardApi.methods := by decide
      rw [hfilter]
      exact List.mem_map_of_mem _ hm

/-- Full-capability api value used by witnesses: implements every method
of the full API surface. -/
def fullApi : ApiValue Nat := ⟨ShardApi, fun _ args => args⟩

/-- Witness for C3 at shard 3 with an api implementing the full surface. -/
theorem c3_witness :
    ((SetRawApiRequestHandlers (fun _ : Unit => (0 : Nat))
      (fun _ => some witnessCodec) 3 fullApi emptyManager true).2
      (protocolID 3 "rawapi" "SendTransaction") = none) ∧
    (∀ m ∈ ShardApi.methods,
      ((SetRawApiRequestHandlers (fun _ : Unit => (0 : Nat))
        (fun _ => some witnessCodec) 3 fullApi emptyManager false).2
        (protocolID 3 "rawapi" m)).isSome) :=
  c3_capability_separation (fun _ : Unit => (0 : Nat))
    (fun _ => some witnessCodec) 3 fullApi emptyManager rfl rfl

/-- Modelled from the spec: the concrete wire schema is owned by the
external Protocol Mirror Model (the pb package, not under src/); a
representative request shape encodes an argument list length-prefixed. -/
def encodeRequest (args : List Nat) : Bytes := args.length :: args

/-- Modelled from the spec: decoding of the representative request shape;
fails on the empty byte string and on a length mismatch. -/
def decodeRequest : Bytes → Except String (List Nat)
  | [] => .error "empty request"
  | n :: rest => if rest.length = n then .ok rest else .error "length mismatch"

/-- A method result: a successful value or a failure indicator, as carried
by the mirror response shape. -/
inductive CallResult where
  | value (vs : List Nat)
  | failure (code : Nat)

/-- Modelled from the spec: the representative response shape encodes a
success tag followed by the value, or a failure tag and code (the codec's
dedicated error path). -/
def encodeResponse : CallResult → Bytes
  | .value vs => 0 :: vs
  | .failure code => [1, code]

/-- Modelled from the spec: decoding of the representative response
shape. -/
def decodeResponse : Bytes → Except String CallResult
  | 0 :: vs => .ok (.value vs)
  | 1 :: code :: [] => .ok (.failure code)
  | _ => .error "malformed response"

/-- C9: for the representative argument and result shapes, decoding the
encoding of a request yields the original arguments, and decoding the
encoding of a response yields the original result (value or failure). -/
theorem c9_codec_round_trip (args : List Nat) (r : CallResult) :
    decodeRequest (encodeRequest args) = .ok args ∧
    decodeResponse (encodeResponse r) = .ok r := by
  constructor
  · simp [encodeRequest, decodeRequest]
  · cases r <;> rfl

end RawApi
